import Mathlib

/-!
Shallow embedding of the dualmouse-deck event decoder
(src/evdev/decode.rs, src/evdev/mod.rs, src/state/cursor.rs).

Modelling conventions:
- Rust `f32` fields (motion deltas, scale) are modelled as exact rationals `ℚ`;
  the decoder only adds and multiplies values derived from `i32` readings.
- Rust `i32` values are modelled as `ℤ` (no claim under study depends on
  32-bit wrap-around).
- `Vec<MtSlotState>` is modelled as `List MtSlotState`; `BTreeSet<Button>` as
  `Finset Button`.
- Logging (`warn!`, `debug!`) is dropped, but the `warned_unknown` one-shot
  flag is kept because it is decoder state.
- `usize::try_from(i32)` succeeds exactly on non-negative values, modelled by
  an explicit `< 0` test plus `Int.toNat`.
- Rust's `%` on `i32` is truncated remainder, modelled by `Int.tmod`.
-/

namespace VoxPlay

/-- Logical cursor identity (src/state/cursor.rs `CursorId`). -/
inductive CursorId where
  | Left
  | Right
deriving DecidableEq, Repr

/-- Mouse button identity (src/state/cursor.rs `Button`). -/
inductive Button where
  | Left
  | Right
  | Middle
deriving DecidableEq, Repr

/-- Accumulated per-cursor state (src/state/cursor.rs `CursorState`). -/
structure CursorState where
  id : CursorId
  x : ℚ
  y : ℚ
  buttons : Finset Button
deriving DecidableEq

/-- Wire-level cursor event (src/state/cursor.rs `CursorEvent`). -/
structure CursorEvent where
  cursor : CursorId
  dx : ℚ
  dy : ℚ
  wheel : ℤ
  button : Option (Button × Bool)
deriving DecidableEq, Repr

/-- src/state/cursor.rs `CursorState::new`. -/
def CursorState.new (id : CursorId) : CursorState :=
  ⟨id, 0, 0, ∅⟩

/-- src/state/cursor.rs `CursorState::apply`. -/
def CursorState.apply (s : CursorState) (event : CursorEvent) : CursorState :=
  let s1 : CursorState := { s with x := s.x + event.dx, y := s.y + event.dy }
  match event.button with
  | some (button, down) =>
      if down then { s1 with buttons := insert button s1.buttons }
      else { s1 with buttons := s1.buttons.erase button }
  | none => s1

/-- evdev absolute-axis identifier, by raw kernel code. -/
structure AbsoluteAxisType where
  code : Nat
deriving DecidableEq, Repr

def ABS_X : AbsoluteAxisType := ⟨0x00⟩
def ABS_Y : AbsoluteAxisType := ⟨0x01⟩
def ABS_MT_SLOT : AbsoluteAxisType := ⟨0x2f⟩
def ABS_MT_POSITION_X : AbsoluteAxisType := ⟨0x35⟩
def ABS_MT_POSITION_Y : AbsoluteAxisType := ⟨0x36⟩
def ABS_MT_TRACKING_ID : AbsoluteAxisType := ⟨0x39⟩

/-- evdev relative-axis identifier, by raw kernel code. -/
structure RelativeAxisType where
  code : Nat
deriving DecidableEq, Repr

def REL_X : RelativeAxisType := ⟨0x00⟩
def REL_Y : RelativeAxisType := ⟨0x01⟩
def REL_WHEEL : RelativeAxisType := ⟨0x08⟩

/-- evdev key identifier, by raw kernel code. -/
structure Key where
  code : Nat
deriving DecidableEq, Repr

def BTN_LEFT : Key := ⟨0x110⟩
def BTN_RIGHT : Key := ⟨0x111⟩
def BTN_MIDDLE : Key := ⟨0x112⟩

/-- evdev `InputEventKind`: the event kinds `Decoder::decode` distinguishes.
`Sync` and `Other` carry the raw code so `event.code()` stays total. -/
inductive InputEventKind where
  | RelAxis (axis : RelativeAxisType)
  | Key (key : VoxPlay.Key)
  | AbsAxis (axis : AbsoluteAxisType)
  | Sync (code : Nat)
  | Other (ty : Nat) (code : Nat)
deriving DecidableEq, Repr

/-- evdev `InputEvent`: its kind and its `i32` value. -/
structure InputEvent where
  kind : InputEventKind
  value : ℤ
deriving DecidableEq, Repr

/-- evdev `InputEvent::code`: the raw hardware code of the event. -/
def InputEvent.code (e : InputEvent) : Nat :=
  match e.kind with
  | .RelAxis a => a.code
  | .Key k => k.code
  | .AbsAxis a => a.code
  | .Sync c => c
  | .Other _ c => c

/-- `RangeInclusive<i32>` with its `contains` test. -/
structure RangeInclusive where
  lo : ℤ
  hi : ℤ
deriving DecidableEq, Repr

def RangeInclusive.contains (r : RangeInclusive) (v : ℤ) : Bool :=
  decide (r.lo ≤ v ∧ v ≤ r.hi)

/-- src/evdev/decode.rs `SingleDeviceMapping`.  `ByEventCodeRange` ranges are
`u16` in the source; codes are embedded into `ℤ` for the containment test. -/
inductive SingleDeviceMapping where
  | Unknown
  | ByAbsAxisRange (axis : AbsoluteAxisType) (left : RangeInclusive) (right : RangeInclusive)
  | ByEventCodeRange (left : RangeInclusive) (right : RangeInclusive)
  | ByTrackingIdParity
deriving DecidableEq, Repr

/-- src/evdev/decode.rs `MappingStrategy`. -/
inductive MappingStrategy where
  | DevicePerCursor (cursor : CursorId)
  | SingleDevice (mapping : SingleDeviceMapping)
deriving DecidableEq, Repr

/-- src/evdev/decode.rs `PendingMotion`. -/
structure PendingMotion where
  dx : ℚ
  dy : ℚ
  wheel : ℤ
  button : Option (Button × Bool)
deriving DecidableEq, Repr

/-- `PendingMotion::default()`. -/
def pendingDefault : PendingMotion := ⟨0, 0, 0, none⟩

instance : Inhabited PendingMotion := ⟨pendingDefault⟩

/-- src/evdev/decode.rs `AbsState`. -/
structure AbsState where
  last_x : Option ℤ
  last_y : Option ℤ
  cur_x : Option ℤ
  cur_y : Option ℤ
deriving DecidableEq, Repr

/-- `AbsState::default()`. -/
def absDefault : AbsState := ⟨none, none, none, none⟩

instance : Inhabited AbsState := ⟨absDefault⟩

/-- src/evdev/decode.rs `MtSlotState`. -/
structure MtSlotState where
  tracking_id : Option ℤ
  cursor : Option CursorId
  last_x : Option ℤ
  last_y : Option ℤ
  cur_x : Option ℤ
  cur_y : Option ℤ
deriving DecidableEq, Repr

/-- `MtSlotState::default()`. -/
def mtSlotDefault : MtSlotState := ⟨none, none, none, none, none, none⟩

instance : Inhabited MtSlotState := ⟨mtSlotDefault⟩

/-- src/evdev/mod.rs `DeviceSource` (the path is kept as a plain string). -/
structure DeviceSource where
  path : String
  name : String
  cursor_hint : Option CursorId
deriving DecidableEq, Repr

/-- src/evdev/decode.rs `Decoder`. -/
structure Decoder where
  mapping : MappingStrategy
  pending_left : PendingMotion
  pending_right : PendingMotion
  abs_left : AbsState
  abs_right : AbsState
  mt_slots : List MtSlotState
  mt_cur_slot : ℤ
  mt_left_tracking : Option ℤ
  mt_right_tracking : Option ℤ
  active_cursor : CursorId
  warned_unknown : Bool
  last_abs_x : Option ℤ
  abs_scale : ℚ
deriving DecidableEq

/-- src/evdev/decode.rs `Decoder::new`. -/
def Decoder.new (mapping : MappingStrategy) (abs_scale : ℚ) : Decoder :=
  ⟨mapping, pendingDefault, pendingDefault, absDefault, absDefault,
   [], 0, none, none, .Left, false, none, abs_scale⟩

/-- `Decoder::pending_mut`, read side. -/
def Decoder.pending (d : Decoder) : CursorId → PendingMotion
  | .Left => d.pending_left
  | .Right => d.pending_right

/-- `Decoder::pending_mut`, write side. -/
def Decoder.setPending (d : Decoder) : CursorId → PendingMotion → Decoder
  | .Left, p => { d with pending_left := p }
  | .Right, p => { d with pending_right := p }

/-- `Decoder::abs_state_mut`, read side. -/
def Decoder.absState (d : Decoder) : CursorId → AbsState
  | .Left => d.abs_left
  | .Right => d.abs_right

/-- `Decoder::abs_state_mut`, write side. -/
def Decoder.setAbsState (d : Decoder) : CursorId → AbsState → Decoder
  | .Left, st => { d with abs_left := st }
  | .Right, st => { d with abs_right := st }

/-- Replace the slot at `idx` (models in-place mutation of `mt_slots[idx]`). -/
def Decoder.setSlot (d : Decoder) (idx : Nat) (slot : MtSlotState) : Decoder :=
  { d with mt_slots := d.mt_slots.set idx slot }

/-- src/evdev/decode.rs `Decoder::ensure_slot`. -/
def Decoder.ensure_slot (d : Decoder) (slot_index : Nat) : Decoder :=
  if d.mt_slots.length ≤ slot_index then
    { d with mt_slots :=
        d.mt_slots ++ List.replicate (slot_index + 1 - d.mt_slots.length) mtSlotDefault }
  else d

/-- src/evdev/decode.rs `map_button`. -/
def map_button (key : VoxPlay.Key) : Option Button :=
  if key = BTN_LEFT then some .Left
  else if key = BTN_RIGHT then some .Right
  else if key = BTN_MIDDLE then some .Middle
  else none

/-- src/evdev/decode.rs `cursor_from_single_mapping`. -/
def cursor_from_single_mapping (mapping : SingleDeviceMapping) (e : InputEvent)
    (last_abs_x : Option ℤ) : Option CursorId :=
  match mapping with
  | .Unknown => none
  | .ByTrackingIdParity =>
      if (match e.kind with | .AbsAxis a => a == ABS_MT_TRACKING_ID | _ => false) then
        if e.value.tmod 2 = 0 then some .Left else some .Right
      else none
  | .ByEventCodeRange left right =>
      if left.contains (e.code : ℤ) then some .Left
      else if right.contains (e.code : ℤ) then some .Right
      else none
  | .ByAbsAxisRange axis left right =>
      if (match e.kind with | .AbsAxis a => a == axis | _ => false) then
        if left.contains e.value then some .Left
        else if right.contains e.value then some .Right
        else none
      else
        match last_abs_x with
        | some value =>
            if left.contains value then some .Left
            else if right.contains value then some .Right
            else none
        | none => none

/-- src/evdev/decode.rs `Decoder::cursor_for_event` (the logged device name is
dropped; the `warned_unknown` one-shot flag is kept). -/
def Decoder.cursor_for_event (d : Decoder) (e : InputEvent) : Decoder × CursorId :=
  match d.mapping with
  | .DevicePerCursor cursor => (d, cursor)
  | .SingleDevice mapping =>
      match cursor_from_single_mapping mapping e d.last_abs_x with
      | some cursor => ({ d with active_cursor := cursor }, cursor)
      | none =>
          let isUnknown := match mapping with | .Unknown => true | _ => false
          let d1 := if isUnknown && !d.warned_unknown
                    then { d with warned_unknown := true } else d
          (d1, d1.active_cursor)

/-- src/evdev/decode.rs `Decoder::update_mapping_from_abs`. -/
def Decoder.update_mapping_from_abs (d : Decoder) (axis : AbsoluteAxisType)
    (value : ℤ) : Decoder :=
  match d.mapping with
  | .SingleDevice (.ByAbsAxisRange map_axis left right) =>
      if axis = map_axis then
        if left.contains value then { d with active_cursor := .Left }
        else if right.contains value then { d with active_cursor := .Right }
        else d
      else d
  | _ => d

/-- src/evdev/decode.rs `Decoder::update_abs_axis`. -/
def Decoder.update_abs_axis (d : Decoder) (cursor : CursorId)
    (axis : AbsoluteAxisType) (value : ℤ) : Decoder :=
  let st := d.absState cursor
  if axis = ABS_X then d.setAbsState cursor { st with cur_x := some value }
  else if axis = ABS_Y then d.setAbsState cursor { st with cur_y := some value }
  else d

/-- src/evdev/decode.rs `Decoder::release_tracking`. -/
def Decoder.release_tracking (d : Decoder) (tracking_id : ℤ) : Decoder :=
  let d1 := if d.mt_left_tracking = some tracking_id
            then { d with mt_left_tracking := none } else d
  if d1.mt_right_tracking = some tracking_id
  then { d1 with mt_right_tracking := none } else d1

/-- src/evdev/decode.rs `Decoder::assign_tracking`. -/
def Decoder.assign_tracking (d : Decoder) (tracking_id : ℤ) :
    Decoder × Option CursorId :=
  if d.mt_left_tracking = some tracking_id then (d, some .Left)
  else if d.mt_right_tracking = some tracking_id then (d, some .Right)
  else if d.mt_left_tracking = none then
    ({ d with mt_left_tracking := some tracking_id }, some .Left)
  else if d.mt_right_tracking = none then
    ({ d with mt_right_tracking := some tracking_id }, some .Right)
  else (d, none)

/-- src/evdev/decode.rs `Decoder::handle_mt_tracking_id`.  `usize::try_from`
fails exactly on negative slot indices. -/
def Decoder.handle_mt_tracking_id (d : Decoder) (value : ℤ) : Decoder :=
  if d.mt_cur_slot < 0 then d
  else
    let slot_index := d.mt_cur_slot.toNat
    let d1 := d.ensure_slot slot_index
    let slot := d1.mt_slots.getD slot_index mtSlotDefault
    if value < 0 then
      let d2 := match slot.tracking_id with
                | some t => d1.release_tracking t
                | none => d1
      d2.setSlot slot_index mtSlotDefault
    else
      let slot1 := { slot with tracking_id := some value }
      let (d2, assigned) := d1.assign_tracking value
      match assigned with
      | some cursor =>
          d2.setSlot slot_index
            { slot1 with cursor := some cursor,
                         cur_x := none, cur_y := none,
                         last_x := none, last_y := none }
      | none => d2.setSlot slot_index slot1

/-- src/evdev/decode.rs `Decoder::update_mt_slot_position`. -/
def Decoder.update_mt_slot_position (d : Decoder) (axis : AbsoluteAxisType)
    (value : ℤ) : Decoder :=
  if d.mt_cur_slot < 0 then d
  else
    let slot_index := d.mt_cur_slot.toNat
    let d1 := d.ensure_slot slot_index
    let slot := d1.mt_slots.getD slot_index mtSlotDefault
    if axis = ABS_MT_POSITION_X then
      d1.setSlot slot_index { slot with cur_x := some value }
    else if axis = ABS_MT_POSITION_Y then
      d1.setSlot slot_index { slot with cur_y := some value }
    else d1

/-- src/evdev/decode.rs `Decoder::update_abs_position`. -/
def Decoder.update_abs_position (d : Decoder) (cursor : CursorId)
    (axis : AbsoluteAxisType) (value : ℤ) : Decoder :=
  if axis = ABS_MT_SLOT then { d with mt_cur_slot := value }
  else if axis = ABS_MT_TRACKING_ID then d.handle_mt_tracking_id value
  else if axis = ABS_MT_POSITION_X then d.update_mt_slot_position axis value
  else if axis = ABS_MT_POSITION_Y then d.update_mt_slot_position axis value
  else if axis = ABS_X then d.update_abs_axis cursor axis value
  else if axis = ABS_Y then d.update_abs_axis cursor axis value
  else d

/-- Loop body of src/evdev/decode.rs `Decoder::apply_mt_deltas` for one slot:
given the slot and the two pending motions, produce their updated values. -/
def mtSlotStep (scale : ℚ) (slot : MtSlotState) (pl pr : PendingMotion) :
    MtSlotState × PendingMotion × PendingMotion :=
  match slot.cursor with
  | none => (slot, pl, pr)
  | some cursor =>
      match slot.cur_x, slot.cur_y with
      | some cx, some cy =>
          match slot.last_x, slot.last_y with
          | some lx, some ly =>
              let slot1 : MtSlotState :=
                { slot with last_x := some cx, last_y := some cy,
                            cur_x := none, cur_y := none }
              let ddx := ((cx - lx : ℤ) : ℚ) * scale
              let ddy := ((cy - ly : ℤ) : ℚ) * scale
              match cursor with
              | .Left => (slot1, { pl with dx := pl.dx + ddx, dy := pl.dy + ddy }, pr)
              | .Right => (slot1, pl, { pr with dx := pr.dx + ddx, dy := pr.dy + ddy })
          | _, _ =>
              ({ slot with last_x := some cx, last_y := some cy,
                           cur_x := none, cur_y := none }, pl, pr)
      | _, _ => (slot, pl, pr)

/-- The `for slot in &mut self.mt_slots` loop of `Decoder::apply_mt_deltas`. -/
def mtRun (scale : ℚ) : List MtSlotState → PendingMotion → PendingMotion →
    List MtSlotState × PendingMotion × PendingMotion
  | [], pl, pr => ([], pl, pr)
  | slot :: rest, pl, pr =>
      let (slot1, pl1, pr1) := mtSlotStep scale slot pl pr
      let (rest1, pl2, pr2) := mtRun scale rest pl1 pr1
      (slot1 :: rest1, pl2, pr2)

/-- src/evdev/decode.rs `Decoder::apply_mt_deltas`. -/
def Decoder.apply_mt_deltas (d : Decoder) : Decoder :=
  let (slots, pl, pr) := mtRun d.abs_scale d.mt_slots d.pending_left d.pending_right
  { d with mt_slots := slots, pending_left := pl, pending_right := pr }

/-- Core of src/evdev/decode.rs `Decoder::abs_delta` on one `AbsState`. -/
def absDeltaCore (scale : ℚ) (st : AbsState) : AbsState × ℚ × ℚ :=
  match st.cur_x, st.cur_y with
  | some cx, some cy =>
      match st.last_x, st.last_y with
      | some lx, some ly =>
          (⟨some cx, some cy, none, none⟩,
           ((cx - lx : ℤ) : ℚ) * scale, ((cy - ly : ℤ) : ℚ) * scale)
      | _, _ => (⟨some cx, some cy, none, none⟩, 0, 0)
  | some _, none => (st, 0, 0)
  | none, some _ => (st, 0, 0)
  | none, none => (st, 0, 0)

/-- src/evdev/decode.rs `Decoder::abs_delta`. -/
def Decoder.abs_delta (d : Decoder) (cursor : CursorId) : Decoder × ℚ × ℚ :=
  let (st, ddx, ddy) := absDeltaCore d.abs_scale (d.absState cursor)
  (d.setAbsState cursor st, ddx, ddy)

/-- One iteration of the `for cursor in [Left, Right]` loop of
src/evdev/decode.rs `Decoder::flush`. -/
def Decoder.flushCursor (d : Decoder) (cursor : CursorId) :
    Decoder × Option CursorEvent :=
  let (d1, abs_dx, abs_dy) := d.abs_delta cursor
  let pending := d1.pending cursor
  let d2 := d1.setPending cursor pendingDefault
  let dx := pending.dx + abs_dx
  let dy := pending.dy + abs_dy
  if dx = 0 ∧ dy = 0 ∧ pending.wheel = 0 ∧ pending.button = none then (d2, none)
  else (d2, some ⟨cursor, dx, dy, pending.wheel, pending.button⟩)

/-- src/evdev/decode.rs `Decoder::flush`. -/
def Decoder.flush (d : Decoder) : Decoder × List CursorEvent :=
  let d0 := d.apply_mt_deltas
  let (d1, evL) := d0.flushCursor .Left
  let (d2, evR) := d1.flushCursor .Right
  (d2, evL.toList ++ evR.toList)

/-- src/evdev/decode.rs `Decoder::decode`.  The `Result` return type is kept
as `Except String`; every path of the source returns `Ok`. -/
def Decoder.decode (d : Decoder) (event : InputEvent) (source : DeviceSource) :
    Except String (Decoder × List CursorEvent) :=
  let _ := source
  let (d1, cursor) := d.cursor_for_event event
  match event.kind with
  | .RelAxis axis =>
      let pending := d1.pending cursor
      let pending1 :=
        if axis = REL_X then { pending with dx := pending.dx + (event.value : ℚ) }
        else if axis = REL_Y then { pending with dy := pending.dy + (event.value : ℚ) }
        else if axis = REL_WHEEL then { pending with wheel := pending.wheel + event.value }
        else pending
      .ok (d1.setPending cursor pending1, [])
  | .Key key =>
      match map_button key with
      | some button =>
          let pending := d1.pending cursor
          .ok (d1.setPending cursor
                { pending with button := some (button, event.value != 0) }, [])
      | none => .ok (d1, [])
  | .AbsAxis axis =>
      let d2 := { d1 with last_abs_x :=
                    if axis = ABS_MT_POSITION_X then some event.value
                    else d1.last_abs_x }
      let d3 := d2.update_mapping_from_abs axis event.value
      let d4 := d3.update_abs_position cursor axis event.value
      .ok (d4, [])
  | .Sync _ =>
      let (d2, events) := d1.flush
      .ok (d2, events)
  | .Other _ _ => .ok (d1, [])

/-- Feed a list of events through the decoder in order, collecting output
(the per-device inner loop of src/evdev/mod.rs `EvdevDaemon::poll`). -/
def decodeRun : Decoder → DeviceSource → List InputEvent →
    Decoder × List CursorEvent
  | d, _, [] => (d, [])
  | d, src, e :: rest =>
      match d.decode e src with
      | .ok (d1, evs) =>
          let (d2, evs1) := decodeRun d1 src rest
          (d2, evs ++ evs1)
      | .error _ => (d, [])

/-- Index bookkeeping of src/evdev/mod.rs `assign_cursor_hints`:
(last index hinted Left, last index hinted Right, unhinted indices in order). -/
def hintIndices (sources : List DeviceSource) :
    Option Nat × Option Nat × List Nat :=
  sources.enum.foldl
    (fun acc p =>
      match p.2.cursor_hint with
      | some .Left => (some p.1, acc.2.1, acc.2.2)
      | some .Right => (acc.1, some p.1, acc.2.2)
      | none => (acc.1, acc.2.1, acc.2.2 ++ [p.1]))
    (none, none, [])

/-- Set the cursor hint of the source at position `i`. -/
def setHint : List DeviceSource → Nat → CursorId → List DeviceSource
  | [], _, _ => []
  | s :: rest, 0, c => { s with cursor_hint := some c } :: rest
  | s :: rest, Nat.succ n, c => s :: setHint rest n c

/-- src/evdev/mod.rs `assign_cursor_hints`. -/
def assign_cursor_hints (sources : List DeviceSource) : List DeviceSource :=
  let (left_idx, right_idx, unknown_idx) := hintIndices sources
  if sources.length = 2 then
    match left_idx, right_idx, unknown_idx with
    | some _, some _, _ => sources
    | some _, none, [unknown] => setHint sources unknown .Right
    | none, some _, [unknown] => setHint sources unknown .Left
    | none, none, [l, r] => setHint (setHint sources l .Left) r .Right
    | _, _, _ => sources
  else sources

/-- Mapping choice per source in src/evdev/mod.rs `EvdevDaemon::new` (both
`None` arms of the source produce `SingleDevice/Unknown`). -/
def mapping_for_source (cursor_hint : Option CursorId) (single_source : Bool) :
    MappingStrategy :=
  match cursor_hint with
  | some cursor => .DevicePerCursor cursor
  | none =>
      if single_source then .SingleDevice .Unknown
      else .SingleDevice .Unknown

/-- The mapping each device receives from `EvdevDaemon::new` (hint pass, then
per-source mapping selection; device opening is I/O and outside the model). -/
def daemonMappings (sources : List DeviceSource) : List MappingStrategy :=
  let sources1 := assign_cursor_hints sources
  let single_source := sources1.length = 1
  sources1.map (fun s => mapping_for_source s.cursor_hint single_source)

/-- Sum of the REL_X increments in a list of events (the value `Decoder::flush`
reports as dx for a purely relative stream). -/
def relSumX : List InputEvent → ℤ
  | [] => 0
  | e :: rest =>
      (match e.kind with
       | .RelAxis a => if a = REL_X then e.value else 0
       | _ => 0) + relSumX rest

/-- Sum of the REL_Y increments in a list of events. -/
def relSumY : List InputEvent → ℤ
  | [] => 0
  | e :: rest =>
      (match e.kind with
       | .RelAxis a => if a = REL_Y then e.value else 0
       | _ => 0) + relSumY rest

/-- Sum of the REL_WHEEL increments in a list of events. -/
def relSumW : List InputEvent → ℤ
  | [] => 0
  | e :: rest =>
      (match e.kind with
       | .RelAxis a => if a = REL_WHEEL then e.value else 0
       | _ => 0) + relSumW rest

/-- The dx/dy/wheel/button totals `Decoder::flush` computes for one cursor:
pending motion after the multi-touch pass, plus the simple-absolute delta. -/
def flushTotals (d : Decoder) (cursor : CursorId) :
    ℚ × ℚ × ℤ × Option (Button × Bool) :=
  let d0 := d.apply_mt_deltas
  let (_, abs_dx, abs_dy) := d0.abs_delta cursor
  let p := d0.pending cursor
  (p.dx + abs_dx, p.dy + abs_dy, p.wheel, p.button)

/-- `Decoder::flush` emits an event for `cursor` exactly when this holds. -/
def emits (d : Decoder) (cursor : CursorId) : Prop :=
  ¬((flushTotals d cursor).1 = 0 ∧ (flushTotals d cursor).2.1 = 0 ∧
    (flushTotals d cursor).2.2.1 = 0 ∧ (flushTotals d cursor).2.2.2 = none)

instance (d : Decoder) (cursor : CursorId) : Decidable (emits d cursor) := by
  unfold emits; infer_instance

/-- The event `Decoder::flush` builds for `cursor` when it emits one. -/
def flushEvent (d : Decoder) (cursor : CursorId) : CursorEvent :=
  ⟨cursor, (flushTotals d cursor).1, (flushTotals d cursor).2.1,
   (flushTotals d cursor).2.2.1, (flushTotals d cursor).2.2.2⟩

/-- The decoder state `Decoder::decode` treats as motion accumulation: the two
pending motions, the two simple-absolute states, and the multi-touch slots. -/
def motionState (d : Decoder) :
    PendingMotion × PendingMotion × AbsState × AbsState × List MtSlotState :=
  (d.pending_left, d.pending_right, d.abs_left, d.abs_right, d.mt_slots)

theorem setPending_self (d : Decoder) (c : CursorId) :
    d.setPending c (d.pending c) = d := by
  cases c <;> rfl

theorem setAbsState_self (d : Decoder) (c : CursorId) :
    d.setAbsState c (d.absState c) = d := by
  cases c <;> rfl

theorem tmod_two_eq_zero_iff (v : ℤ) : v.tmod 2 = 0 ↔ 2 ∣ v :=
  ⟨Int.dvd_of_tmod_eq_zero, Int.tmod_eq_zero_of_dvd⟩

/-- C7: under a DevicePerCursor mapping every event resolves to the fixed
cursor; no heuristic runs and no decoder state changes. -/
theorem C7_device_per_cursor (d : Decoder) (e : InputEvent) (cursor : CursorId)
    (h : d.mapping = .DevicePerCursor cursor) :
    d.cursor_for_event e = (d, cursor) := by
  simp [Decoder.cursor_for_event, h]

theorem C7_witness :
    (Decoder.new (.DevicePerCursor .Right) 1).cursor_for_event
        ⟨.AbsAxis ABS_MT_TRACKING_ID, 4⟩ =
      (Decoder.new (.DevicePerCursor .Right) 1, .Right) :=
  C7_device_per_cursor _ _ _ rfl

/-- C10: applying a release of a button not held leaves the button set
unchanged; applying the same press twice equals applying it once; `apply`
never modifies the `id` field. -/
theorem C10_apply_algebra (s : CursorState) (e : CursorEvent) (b : Button) :
    (e.button = some (b, false) → b ∉ s.buttons →
      (s.apply e).buttons = s.buttons)
    ∧ (e.button = some (b, true) →
      ((s.apply e).apply e).buttons = (s.apply e).buttons)
    ∧ (s.apply e).id = s.id := by
  refine ⟨?_, ?_, ?_⟩
  · intro hb hmem
    simp [CursorState.apply, hb, Finset.erase_eq_of_not_mem hmem]
  · intro hb
    simp [CursorState.apply, hb, Finset.insert_idem]
  · unfold CursorState.apply
    rcases e.button with _ | ⟨b1, down⟩
    · rfl
    · cases down <;> rfl

theorem C10_witness :
    (((CursorState.new .Left).apply
        ⟨.Left, 1, 2, 0, some (.Middle, false)⟩).buttons
      = (CursorState.new .Left).buttons)
    ∧ ((((CursorState.new .Left).apply ⟨.Left, 1, 2, 0, some (.Middle, true)⟩).apply
          ⟨.Left, 1, 2, 0, some (.Middle, true)⟩).buttons
        = ((CursorState.new .Left).apply ⟨.Left, 1, 2, 0, some (.Middle, true)⟩).buttons) :=
  ⟨(C10_apply_algebra (CursorState.new .Left)
      ⟨.Left, 1, 2, 0, some (.Middle, false)⟩ .Middle).1 rfl (by decide),
   (C10_apply_algebra (CursorState.new .Left)
      ⟨.Left, 1, 2, 0, some (.Middle, true)⟩ .Middle).2.1 rfl⟩

/-- C6: under ByTrackingIdParity, an event on the tracking-id axis with an even
value routes to Left and an odd value to Right (updating the active cursor);
every other event kind leaves the active cursor unchanged and resolves to it. -/
theorem C6_tracking_parity (d : Decoder) (e : InputEvent)
    (hm : d.mapping = .SingleDevice .ByTrackingIdParity) :
    (e.kind = .AbsAxis ABS_MT_TRACKING_ID →
      ((2 ∣ e.value →
          d.cursor_for_event e = ({ d with active_cursor := .Left }, .Left))
       ∧ (¬ 2 ∣ e.value →
          d.cursor_for_event e = ({ d with active_cursor := .Right }, .Right))))
    ∧ (e.kind ≠ .AbsAxis ABS_MT_TRACKING_ID →
        d.cursor_for_event e = (d, d.active_cursor)) := by
  constructor
  · intro hk
    constructor
    · intro hdvd
      have h0 : e.value.tmod 2 = 0 := (tmod_two_eq_zero_iff e.value).2 hdvd
      simp [Decoder.cursor_for_event, cursor_from_single_mapping, hm, hk, h0]
    · intro hdvd
      have h0 : ¬ e.value.tmod 2 = 0 := fun h => hdvd ((tmod_two_eq_zero_iff e.value).1 h)
      simp [Decoder.cursor_for_event, cursor_from_single_mapping, hm, hk, h0]
  · intro hk
    have hb : (match e.kind with
               | .AbsAxis a => a == ABS_MT_TRACKING_ID
               | _ => false) = false := by
      rcases he : e.kind with a | k | a | c | ⟨ty, c⟩
      · rfl
      · rfl
      · have ha : a ≠ ABS_MT_TRACKING_ID := fun h => hk (by rw [he, h])
        simpa using ha
      · rfl
      · rfl
    simp [Decoder.cursor_for_event, cursor_from_single_mapping, hm, hb]

theorem C6_witness :
    ((Decoder.new (.SingleDevice .ByTrackingIdParity) 1).cursor_for_event
        ⟨.AbsAxis ABS_MT_TRACKING_ID, 7⟩
      = ({ Decoder.new (.SingleDevice .ByTrackingIdParity) 1 with
             active_cursor := .Right }, .Right))
    ∧ ((Decoder.new (.SingleDevice .ByTrackingIdParity) 1).cursor_for_event
        ⟨.RelAxis REL_X, 3⟩
      = (Decoder.new (.SingleDevice .ByTrackingIdParity) 1, .Left)) :=
  ⟨((C6_tracking_parity _ _ rfl).1 rfl).2 (by decide),
   (C6_tracking_parity (Decoder.new (.SingleDevice .ByTrackingIdParity) 1)
      ⟨.RelAxis REL_X, 3⟩ rfl).2 (by decide)⟩

theorem getD_set_self (l : List MtSlotState) (i : Nat) (x dflt : MtSlotState)
    (h : i < l.length) : (l.set i x).getD i dflt = x := by
  induction l generalizing i with
  | nil => simp at h
  | cons a t ih =>
      cases i with
      | zero => rfl
      | succ n => simpa [List.getD] using ih n (by simpa using h)

theorem ensure_slot_lt (d : Decoder) (i : Nat) :
    i < (d.ensure_slot i).mt_slots.length := by
  unfold Decoder.ensure_slot
  split
  · simp only [List.length_append, List.length_replicate]
    omega
  · omega

theorem ensure_slot_tracking (d : Decoder) (i : Nat) :
    (d.ensure_slot i).mt_left_tracking = d.mt_left_tracking
    ∧ (d.ensure_slot i).mt_right_tracking = d.mt_right_tracking := by
  unfold Decoder.ensure_slot
  split <;> exact ⟨rfl, rfl⟩

theorem assign_tracking_snd_congr (d d1 : Decoder) (v : ℤ)
    (hl : d1.mt_left_tracking = d.mt_left_tracking)
    (hr : d1.mt_right_tracking = d.mt_right_tracking) :
    (d1.assign_tracking v).2 = (d.assign_tracking v).2 := by
  unfold Decoder.assign_tracking
  rw [hl, hr]
  split <;> [rfl; split <;> [rfl; split <;> [rfl; split <;> rfl]]]

theorem assign_tracking_slots (d : Decoder) (v : ℤ) :
    (d.assign_tracking v).1.mt_slots = d.mt_slots := by
  unfold Decoder.assign_tracking
  split <;> [rfl; split <;> [rfl; split <;> [rfl; split <;> rfl]]]

/-- C3: for a simple-absolute state or a multi-touch slot, the first complete
(x, y) sample (no previous sample, for a slot also right after a tracking-id
(re)assignment, which clears its history) yields zero delta and only seeds
last_x/last_y; a complete sample with a previous one yields
(current - previous) * scale per axis; a sample missing x or y is held back
unchanged. -/
theorem C3_abs_delta_seeding (scale : ℚ) (st : AbsState) (cx cy lx ly : ℤ)
    (slot : MtSlotState) (pl pr : PendingMotion) (tid : Option ℤ)
    (cu : CursorId) (d : Decoder) (v : ℤ) :
    ((st.last_x = none ∨ st.last_y = none) → st.cur_x = some cx →
      st.cur_y = some cy →
      absDeltaCore scale st = (⟨some cx, some cy, none, none⟩, 0, 0))
    ∧ (absDeltaCore scale ⟨some lx, some ly, some cx, some cy⟩ =
        (⟨some cx, some cy, none, none⟩,
         ((cx - lx : ℤ) : ℚ) * scale, ((cy - ly : ℤ) : ℚ) * scale))
    ∧ (st.cur_y = none → absDeltaCore scale st = (st, 0, 0))
    ∧ (st.cur_x = none → absDeltaCore scale st = (st, 0, 0))
    ∧ (slot.cursor = some cu → slot.cur_x = some cx → slot.cur_y = some cy →
        (slot.last_x = none ∨ slot.last_y = none) →
        mtSlotStep scale slot pl pr =
          ({ slot with last_x := some cx, last_y := some cy,
                       cur_x := none, cur_y := none }, pl, pr))
    ∧ (mtSlotStep scale ⟨tid, some .Left, some lx, some ly, some cx, some cy⟩ pl pr =
        (⟨tid, some .Left, some cx, some cy, none, none⟩,
         { pl with dx := pl.dx + ((cx - lx : ℤ) : ℚ) * scale,
                   dy := pl.dy + ((cy - ly : ℤ) : ℚ) * scale }, pr))
    ∧ (mtSlotStep scale ⟨tid, some .Right, some lx, some ly, some cx, some cy⟩ pl pr =
        (⟨tid, some .Right, some cx, some cy, none, none⟩, pl,
         { pr with dx := pr.dx + ((cx - lx : ℤ) : ℚ) * scale,
                   dy := pr.dy + ((cy - ly : ℤ) : ℚ) * scale }))
    ∧ (slot.cur_y = none → mtSlotStep scale slot pl pr = (slot, pl, pr))
    ∧ (slot.cur_x = none → mtSlotStep scale slot pl pr = (slot, pl, pr))
    ∧ (0 ≤ d.mt_cur_slot → 0 ≤ v → (d.assign_tracking v).2 = some cu →
        (d.handle_mt_tracking_id v).mt_slots.getD d.mt_cur_slot.toNat mtSlotDefault
          = ⟨some v, some cu, none, none, none, none⟩) := by
  refine ⟨?_, ?_, ?_, ?_, ?_, ?_, ?_, ?_, ?_, ?_⟩
  · intro hlast hx hy
    unfold absDeltaCore
    rw [hx, hy]
    rcases hx' : st.last_x with _ | lxv <;> rcases hy' : st.last_y with _ | lyv <;>
      simp_all
  · rfl
  · intro hy
    unfold absDeltaCore
    rw [hy]
    rcases st.cur_x <;> rfl
  · intro hx
    unfold absDeltaCore
    rw [hx]
    rcases st.cur_y <;> rfl
  · intro hc hx hy hlast
    unfold mtSlotStep
    rw [hc, hx, hy]
    rcases hx' : slot.last_x with _ | lxv <;> rcases hy' : slot.last_y with _ | lyv <;>
      simp_all
  · rfl
  · rfl
  · intro hy
    unfold mtSlotStep
    rw [hy]
    rcases slot.cursor <;> rcases slot.cur_x <;> rfl
  · intro hx
    unfold mtSlotStep
    rw [hx]
    rcases slot.cursor <;> rfl
  · intro hslot hv hassign
    unfold Decoder.handle_mt_tracking_id
    rw [if_neg (by omega), if_neg (by omega)]
    have hens := ensure_slot_tracking d d.mt_cur_slot.toNat
    have hsnd : ((d.ensure_slot d.mt_cur_slot.toNat).assign_tracking v).2
        = (d.assign_tracking v).2 :=
      assign_tracking_snd_congr d _ v hens.1 hens.2
    rcases hpair : (d.ensure_slot d.mt_cur_slot.toNat).assign_tracking v with ⟨d2, assigned⟩
    have : assigned = some cu := by
      have := hsnd
      rw [hpair] at this
      simp at this
      rw [this, hassign]
    subst this
    simp only [Decoder.setSlot]
    have hlen : d.mt_cur_slot.toNat < d2.mt_slots.length := by
      have h1 := assign_tracking_slots (d.ensure_slot d.mt_cur_slot.toNat) v
      rw [hpair] at h1
      simp at h1
      rw [h1]
      exact ensure_slot_lt d _
    exact getD_set_self _ _ _ _ hlen

theorem C3_witness :
    absDeltaCore 1 ⟨none, none, some 100, some 200⟩ =
      (⟨some 100, some 200, none, none⟩, 0, 0)
    ∧ ((Decoder.new (.SingleDevice .ByTrackingIdParity) 1).handle_mt_tracking_id 7).mt_slots.getD
        (Decoder.new (.SingleDevice .ByTrackingIdParity) 1).mt_cur_slot.toNat mtSlotDefault
      = ⟨some 7, some .Left, none, none, none, none⟩ :=
  ⟨(C3_abs_delta_seeding 1 ⟨none, none, some 100, some 200⟩ 100 200 0 0
      mtSlotDefault pendingDefault pendingDefault none .Left
      (Decoder.new (.SingleDevice .ByTrackingIdParity) 1) 7).1
      (Or.inl rfl) rfl rfl,
   (C3_abs_delta_seeding 1 ⟨none, none, some 100, some 200⟩ 100 200 0 0
      mtSlotDefault pendingDefault pendingDefault none .Left
      (Decoder.new (.SingleDevice .ByTrackingIdParity) 1) 7).2.2.2.2.2.2.2.2.2
      (by decide) (by decide) (by decide)⟩

theorem assign_tracking_inv (d : Decoder) (t : ℤ)
    (hinv : ∀ x, ¬(d.mt_left_tracking = some x ∧ d.mt_right_tracking = some x)) :
    ∀ x, ¬((d.assign_tracking t).1.mt_left_tracking = some x ∧
           (d.assign_tracking t).1.mt_right_tracking = some x) := by
  intro x
  by_cases h1 : d.mt_left_tracking = some t
  · simpa [Decoder.assign_tracking, h1] using hinv x
  · by_cases h2 : d.mt_right_tracking = some t
    · simpa [Decoder.assign_tracking, h1, h2] using hinv x
    · by_cases h3 : d.mt_left_tracking = none
      · simp only [Decoder.assign_tracking, if_neg h1, if_neg h2, if_pos h3]
        intro hpair
        have hx : some t = some x := hpair.1
        have hy : d.mt_right_tracking = some x := hpair.2
        rw [Option.some_inj.1 hx] at h2
        exact h2 hy
      · by_cases h4 : d.mt_right_tracking = none
        · simp only [Decoder.assign_tracking, if_neg h1, if_neg h2, if_neg h3,
            if_pos h4]
          intro hpair
          have hx : d.mt_left_tracking = some x := hpair.1
          have hy : some t = some x := hpair.2
          rw [← Option.some_inj.1 hy] at hx
          exact h1 hx
        · simpa [Decoder.assign_tracking, h1, h2, h3, h4] using hinv x

theorem release_tracking_mt_slots (d : Decoder) (t : ℤ) :
    (d.release_tracking t).mt_slots = d.mt_slots := by
  by_cases hl : d.mt_left_tracking = some t <;>
    by_cases hr : d.mt_right_tracking = some t <;>
      simp [Decoder.release_tracking, hl, hr]

theorem handle_negative_clears (d : Decoder) (v : ℤ)
    (hslot : 0 ≤ d.mt_cur_slot) (hneg : v < 0) :
    (d.handle_mt_tracking_id v).mt_slots.getD d.mt_cur_slot.toNat mtSlotDefault
      = mtSlotDefault := by
  unfold Decoder.handle_mt_tracking_id
  rw [if_neg (by omega)]
  dsimp only
  rw [if_pos hneg]
  have hlt := ensure_slot_lt d d.mt_cur_slot.toNat
  split
  · simp only [Decoder.setSlot]
    exact getD_set_self _ _ _ _ (by rw [release_tracking_mt_slots]; exact hlt)
  · simp only [Decoder.setSlot]
    exact getD_set_self _ _ _ _ hlt

theorem release_tracking_frees (d : Decoder) (t : ℤ) :
    ((d.release_tracking t).mt_left_tracking ≠ some t
      ∧ (d.release_tracking t).mt_right_tracking ≠ some t)
    ∧ (d.mt_left_tracking ≠ some t →
        (d.release_tracking t).mt_left_tracking = d.mt_left_tracking)
    ∧ (d.mt_right_tracking ≠ some t →
        (d.release_tracking t).mt_right_tracking = d.mt_right_tracking) := by
  by_cases hl : d.mt_left_tracking = some t <;>
    by_cases hr : d.mt_right_tracking = some t <;>
      simp [Decoder.release_tracking, hl, hr]

/-- C4: the tracking allocation binds at most one id per cursor and never the
same id to both; an existing binding is looked up; a new id goes to the free
cursor, preferring Left; with both cursors busy the id gets no cursor, and a
cursorless slot contributes nothing at flush time; a negative tracking-id
value clears the slot and releases its id from whichever cursor held it. -/
theorem C4_tracking_bounds (d : Decoder) (t a b : ℤ) (slot : MtSlotState)
    (pl pr : PendingMotion) (scale : ℚ) (v : ℤ) :
    (d.mt_left_tracking = some t → d.assign_tracking t = (d, some .Left))
    ∧ (d.mt_left_tracking ≠ some t → d.mt_right_tracking = some t →
        d.assign_tracking t = (d, some .Right))
    ∧ (d.mt_left_tracking = none → d.mt_right_tracking ≠ some t →
        d.assign_tracking t = ({ d with mt_left_tracking := some t }, some .Left))
    ∧ (d.mt_left_tracking = some a → a ≠ t → d.mt_right_tracking = none →
        d.assign_tracking t = ({ d with mt_right_tracking := some t }, some .Right))
    ∧ (d.mt_left_tracking = some a → d.mt_right_tracking = some b →
        a ≠ t → b ≠ t → d.assign_tracking t = (d, none))
    ∧ (slot.cursor = none → mtSlotStep scale slot pl pr = (slot, pl, pr))
    ∧ ((∀ x, ¬(d.mt_left_tracking = some x ∧ d.mt_right_tracking = some x)) →
        ∀ x, ¬((d.assign_tracking t).1.mt_left_tracking = some x ∧
               (d.assign_tracking t).1.mt_right_tracking = some x))
    ∧ (0 ≤ d.mt_cur_slot → v < 0 →
        (d.handle_mt_tracking_id v).mt_slots.getD d.mt_cur_slot.toNat mtSlotDefault
          = mtSlotDefault)
    ∧ ((d.release_tracking t).mt_left_tracking ≠ some t)
    ∧ ((d.release_tracking t).mt_right_tracking ≠ some t)
    ∧ (d.mt_left_tracking ≠ some t →
        (d.release_tracking t).mt_left_tracking = d.mt_left_tracking)
    ∧ (d.mt_right_tracking ≠ some t →
        (d.release_tracking t).mt_right_tracking = d.mt_right_tracking)
    ∧ (0 ≤ d.mt_cur_slot → 0 ≤ v → (d.assign_tracking v).2 = none →
        d.mt_cur_slot.toNat < d.mt_slots.length →
        (d.mt_slots.getD d.mt_cur_slot.toNat mtSlotDefault).cursor = none →
        ((d.handle_mt_tracking_id v).mt_slots.getD d.mt_cur_slot.toNat
          mtSlotDefault).cursor = none) := by
  refine ⟨?_, ?_, ?_, ?_, ?_, ?_, ?_, ?_, ?_, ?_, ?_, ?_, ?_⟩
  · intro h
    simp [Decoder.assign_tracking, h]
  · intro hne h
    simp [Decoder.assign_tracking, hne, h]
  · intro hnone hne
    simp [Decoder.assign_tracking, hnone, hne]
  · intro hl hne hr
    simp [Decoder.assign_tracking, hl, hr, hne, Ne.symm hne]
  · intro hl hr hna hnb
    simp [Decoder.assign_tracking, hl, hr, hna, hnb, Ne.symm hna, Ne.symm hnb]
  · intro hc
    unfold mtSlotStep
    rw [hc]
  · exact assign_tracking_inv d t
  · exact handle_negative_clears d v
  · exact (release_tracking_frees d t).1.1
  · exact (release_tracking_frees d t).1.2
  · exact (release_tracking_frees d t).2.1
  · exact (release_tracking_frees d t).2.2
  · intro hslot hv hassign hlen hcur
    unfold Decoder.handle_mt_tracking_id
    rw [if_neg (by omega)]
    dsimp only
    rw [if_neg (by omega)]
    have hens : d.ensure_slot d.mt_cur_slot.toNat = d := by
      unfold Decoder.ensure_slot
      rw [if_neg (by omega)]
    rw [hens]
    rcases hpair : d.assign_tracking v with ⟨d2, assigned⟩
    have hass : assigned = none := by
      rw [hpair] at hassign
      simpa using hassign
    subst hass
    dsimp only
    simp only [Decoder.setSlot]
    have hlen2 : d.mt_cur_slot.toNat < d2.mt_slots.length := by
      have hsl := assign_tracking_slots d v
      rw [hpair] at hsl
      simp only at hsl
      rw [hsl]
      exact hlen
    rw [getD_set_self _ _ _ _ hlen2]
    exact hcur

theorem C4_witness :
    (Decoder.new (.SingleDevice .ByTrackingIdParity) 1).assign_tracking 7
      = ({ Decoder.new (.SingleDevice .ByTrackingIdParity) 1 with
             mt_left_tracking := some 7 }, some .Left)
    ∧ ({ Decoder.new (.SingleDevice .ByTrackingIdParity) 1 with
           mt_left_tracking := some 5, mt_right_tracking := some 6 }).assign_tracking 7
      = ({ Decoder.new (.SingleDevice .ByTrackingIdParity) 1 with
             mt_left_tracking := some 5, mt_right_tracking := some 6 }, none) :=
  ⟨(C4_tracking_bounds (Decoder.new (.SingleDevice .ByTrackingIdParity) 1)
      7 5 6 mtSlotDefault pendingDefault pendingDefault 1 (-1)).2.2.1
      rfl (by decide),
   (C4_tracking_bounds ({ Decoder.new (.SingleDevice .ByTrackingIdParity) 1 with
        mt_left_tracking := some 5, mt_right_tracking := some 6 })
      7 5 6 mtSlotDefault pendingDefault pendingDefault 1 (-1)).2.2.2.2.1
      rfl rfl (by decide) (by decide)⟩

/-- C8: with exactly two sources and at most one cursor hint, the daemon's
hint pass fills in the missing hints so both devices get DevicePerCursor
mappings (an unhinted partner receives the opposite cursor; with no hints the
first source is Left and the second Right); with any other source count no
hint is assigned and every unhinted source maps to SingleDevice/Unknown. -/
theorem C8_daemon_hints (s1 s2 : DeviceSource) (sources : List DeviceSource) :
    (s1.cursor_hint = none → s2.cursor_hint = none →
      daemonMappings [s1, s2] = [.DevicePerCursor .Left, .DevicePerCursor .Right])
    ∧ (s1.cursor_hint = some .Left → s2.cursor_hint = none →
      daemonMappings [s1, s2] = [.DevicePerCursor .Left, .DevicePerCursor .Right])
    ∧ (s1.cursor_hint = some .Right → s2.cursor_hint = none →
      daemonMappings [s1, s2] = [.DevicePerCursor .Right, .DevicePerCursor .Left])
    ∧ (s1.cursor_hint = none → s2.cursor_hint = some .Left →
      daemonMappings [s1, s2] = [.DevicePerCursor .Right, .DevicePerCursor .Left])
    ∧ (s1.cursor_hint = none → s2.cursor_hint = some .Right →
      daemonMappings [s1, s2] = [.DevicePerCursor .Left, .DevicePerCursor .Right])
    ∧ (sources.length ≠ 2 → assign_cursor_hints sources = sources)
    ∧ (∀ hint single, hint = none →
        mapping_for_source hint single = .SingleDevice .Unknown) := by
  obtain ⟨p1, n1, h1⟩ := s1
  obtain ⟨p2, n2, h2⟩ := s2
  refine ⟨?_, ?_, ?_, ?_, ?_, ?_, ?_⟩
  · intro e1 e2
    simp only at e1 e2
    subst e1; subst e2; rfl
  · intro e1 e2
    simp only at e1 e2
    subst e1; subst e2; rfl
  · intro e1 e2
    simp only at e1 e2
    subst e1; subst e2; rfl
  · intro e1 e2
    simp only at e1 e2
    subst e1; subst e2; rfl
  · intro e1 e2
    simp only at e1 e2
    subst e1; subst e2; rfl
  · intro hlen
    unfold assign_cursor_hints
    rcases hintIndices sources with ⟨li, ri, unk⟩
    simp [hlen]
  · intro hint single he
    subst he
    cases single <;> rfl

theorem C8_witness :
    daemonMappings [⟨"/dev/input/event4", "padA", none⟩,
                    ⟨"/dev/input/event5", "padB", none⟩]
      = [.DevicePerCursor .Left, .DevicePerCursor .Right]
    ∧ assign_cursor_hints [⟨"/dev/input/event4", "padA", none⟩]
      = [⟨"/dev/input/event4", "padA", none⟩] :=
  ⟨(C8_daemon_hints ⟨"/dev/input/event4", "padA", none⟩
      ⟨"/dev/input/event5", "padB", none⟩ []).1 rfl rfl,
   (C8_daemon_hints ⟨"/dev/input/event4", "padA", none⟩
      ⟨"/dev/input/event5", "padB", none⟩
      [⟨"/dev/input/event4", "padA", none⟩]).2.2.2.2.2.1 (by decide)⟩

theorem cursor_for_event_fields (d : Decoder) (e : InputEvent) :
    motionState (d.cursor_for_event e).1 = motionState d
    ∧ (d.cursor_for_event e).1.mt_cur_slot = d.mt_cur_slot
    ∧ (d.cursor_for_event e).1.last_abs_x = d.last_abs_x := by
  unfold Decoder.cursor_for_event
  rcases hm : d.mapping with c | m <;> simp only [hm]
  · simp [motionState]
  · rcases hc : cursor_from_single_mapping m e d.last_abs_x with _ | c <;>
      simp only [hc]
    · split <;> simp [motionState]
    · simp [motionState]

theorem update_mapping_from_abs_fields (d : Decoder) (ax : AbsoluteAxisType)
    (v : ℤ) :
    motionState (d.update_mapping_from_abs ax v) = motionState d
    ∧ (d.update_mapping_from_abs ax v).mt_cur_slot = d.mt_cur_slot
    ∧ (d.update_mapping_from_abs ax v).last_abs_x = d.last_abs_x := by
  unfold Decoder.update_mapping_from_abs
  split
  · split
    · split
      · exact ⟨rfl, rfl, rfl⟩
      · split
        · exact ⟨rfl, rfl, rfl⟩
        · exact ⟨rfl, rfl, rfl⟩
    · exact ⟨rfl, rfl, rfl⟩
  · exact ⟨rfl, rfl, rfl⟩

theorem update_abs_position_unknown_axis (d : Decoder) (c : CursorId)
    (ax : AbsoluteAxisType) (v : ℤ)
    (h1 : ax ≠ ABS_MT_SLOT) (h2 : ax ≠ ABS_MT_TRACKING_ID)
    (h3 : ax ≠ ABS_MT_POSITION_X) (h4 : ax ≠ ABS_MT_POSITION_Y)
    (h5 : ax ≠ ABS_X) (h6 : ax ≠ ABS_Y) :
    d.update_abs_position c ax v = d := by
  unfold Decoder.update_abs_position
  rw [if_neg h1, if_neg h2, if_neg h3, if_neg h4, if_neg h5, if_neg h6]

theorem decode_isOk (d : Decoder) (e : InputEvent) (src : DeviceSource) :
    ∃ out, d.decode e src = .ok out := by
  unfold Decoder.decode
  rcases hcp : d.cursor_for_event e with ⟨dc, cursor⟩
  rcases hk : e.kind with a' | k' | ax' | c' | ⟨ty', c'⟩
  · exact ⟨_, rfl⟩
  · dsimp only
    rcases map_button k' with _ | b
    · exact ⟨_, rfl⟩
    · exact ⟨_, rfl⟩
  · exact ⟨_, rfl⟩
  · exact ⟨_, rfl⟩
  · exact ⟨_, rfl⟩

/-- C9: `Decoder::decode` is total (every input event yields `Ok`), and events
it ignores (unrecognized relative axes, keys that map to no button,
unrecognized absolute axes, and multi-touch fields with a slot index not
representable as an array index) produce no output and leave the decoder's
motion-accumulation state unchanged. -/
theorem C9_decode_total (d : Decoder) (e : InputEvent) (src : DeviceSource)
    (a : RelativeAxisType) (k : VoxPlay.Key) (ax : AbsoluteAxisType) :
    (∃ out, d.decode e src = .ok out)
    ∧ (e.kind = .RelAxis a → a ≠ REL_X → a ≠ REL_Y → a ≠ REL_WHEEL →
        ∃ d1, d.decode e src = .ok (d1, []) ∧ motionState d1 = motionState d)
    ∧ (e.kind = .Key k → map_button k = none →
        ∃ d1, d.decode e src = .ok (d1, []) ∧ motionState d1 = motionState d)
    ∧ (e.kind = .AbsAxis ax → ax ≠ ABS_X → ax ≠ ABS_Y → ax ≠ ABS_MT_SLOT →
        ax ≠ ABS_MT_TRACKING_ID → ax ≠ ABS_MT_POSITION_X → ax ≠ ABS_MT_POSITION_Y →
        ∃ d1, d.decode e src = .ok (d1, []) ∧ motionState d1 = motionState d)
    ∧ (e.kind = .AbsAxis ABS_MT_TRACKING_ID → d.mt_cur_slot < 0 →
        ∃ d1, d.decode e src = .ok (d1, []) ∧ motionState d1 = motionState d)
    ∧ (e.kind = .AbsAxis ABS_MT_POSITION_X → d.mt_cur_slot < 0 →
        ∃ d1, d.decode e src = .ok (d1, []) ∧ motionState d1 = motionState d) := by
  rcases hcp : d.cursor_for_event e with ⟨dc, cursor⟩
  have hdc : dc = (d.cursor_for_event e).1 := by rw [hcp]
  have hfields := cursor_for_event_fields d e
  refine ⟨?_, ?_, ?_, ?_, ?_, ?_⟩
  · exact decode_isOk d e src
  · intro hk h1 h2 h3
    refine ⟨dc, ?_, ?_⟩
    · unfold Decoder.decode
      rw [hcp, hk]
      dsimp only
      rw [if_neg h1, if_neg h2, if_neg h3, setPending_self]
    · rw [hdc]
      exact hfields.1
  · intro hk hmb
    refine ⟨dc, ?_, ?_⟩
    · unfold Decoder.decode
      rw [hcp, hk]
      dsimp only
      rw [hmb]
    · rw [hdc]
      exact hfields.1
  · intro hk h1 h2 h3 h4 h5 h6
    refine ⟨(({ dc with last_abs_x := if ax = ABS_MT_POSITION_X then some e.value
                else dc.last_abs_x }).update_mapping_from_abs ax e.value), ?_, ?_⟩
    · unfold Decoder.decode
      rw [hcp, hk]
      dsimp only
      rw [update_abs_position_unknown_axis _ _ _ _ h3 h4 h5 h6 h1 h2]
    · rw [if_neg h5]
      have hu := update_mapping_from_abs_fields
        ({ dc with last_abs_x := dc.last_abs_x }) ax e.value
      calc motionState (({ dc with last_abs_x := dc.last_abs_x
              }).update_mapping_from_abs ax e.value)
          = motionState ({ dc with last_abs_x := dc.last_abs_x } : Decoder) := hu.1
        _ = motionState dc := rfl
        _ = motionState d := by rw [hdc]; exact hfields.1
  · intro hk hneg
    have hx : ABS_MT_TRACKING_ID ≠ ABS_MT_POSITION_X := by decide
    have heq : d.decode e src = .ok
        ((dc.update_mapping_from_abs ABS_MT_TRACKING_ID e.value).update_abs_position
           cursor ABS_MT_TRACKING_ID e.value, []) := by
      unfold Decoder.decode
      rw [hcp, hk]
      dsimp only
      rw [if_neg hx]
    refine ⟨_, heq, ?_⟩
    · have hu := update_mapping_from_abs_fields dc ABS_MT_TRACKING_ID e.value
      have hpos : (dc.update_mapping_from_abs ABS_MT_TRACKING_ID
          e.value).update_abs_position cursor ABS_MT_TRACKING_ID e.value
          = (dc.update_mapping_from_abs ABS_MT_TRACKING_ID e.value).handle_mt_tracking_id
              e.value := by
        unfold Decoder.update_abs_position
        rw [if_neg (by decide), if_pos rfl]
      rw [hpos]
      have hslot : (dc.update_mapping_from_abs ABS_MT_TRACKING_ID
          e.value).mt_cur_slot < 0 := by
        rw [hu.2.1, hdc, hfields.2.1]
        exact hneg
      have hh : (dc.update_mapping_from_abs ABS_MT_TRACKING_ID
          e.value).handle_mt_tracking_id e.value
          = dc.update_mapping_from_abs ABS_MT_TRACKING_ID e.value := by
        unfold Decoder.handle_mt_tracking_id
        rw [if_pos hslot]
      rw [hh, hu.1, hdc]
      exact hfields.1
  · intro hk hneg
    have heq : d.decode e src = .ok
        ((({ dc with last_abs_x := some e.value } : Decoder).update_mapping_from_abs
            ABS_MT_POSITION_X e.value).update_abs_position cursor ABS_MT_POSITION_X
            e.value, []) := by
      unfold Decoder.decode
      rw [hcp, hk]
      dsimp only
      rw [if_pos rfl]
    refine ⟨_, heq, ?_⟩
    · have hu := update_mapping_from_abs_fields
        ({ dc with last_abs_x := some e.value }) ABS_MT_POSITION_X e.value
      have hpos : (({ dc with last_abs_x := some e.value
          } : Decoder).update_mapping_from_abs ABS_MT_POSITION_X
            e.value).update_abs_position cursor ABS_MT_POSITION_X e.value
          = (({ dc with last_abs_x := some e.value
              } : Decoder).update_mapping_from_abs ABS_MT_POSITION_X
                e.value).update_mt_slot_position ABS_MT_POSITION_X e.value := by
        unfold Decoder.update_abs_position
        rw [if_neg (by decide), if_neg (by decide), if_pos rfl]
      rw [hpos]
      have hslot : (({ dc with last_abs_x := some e.value
          } : Decoder).update_mapping_from_abs ABS_MT_POSITION_X
            e.value).mt_cur_slot < 0 := by
        rw [hu.2.1]
        show dc.mt_cur_slot < 0
        rw [hdc, hfields.2.1]
        exact hneg
      have hh : (({ dc with last_abs_x := some e.value
          } : Decoder).update_mapping_from_abs ABS_MT_POSITION_X
            e.value).update_mt_slot_position ABS_MT_POSITION_X e.value
          = ({ dc with last_abs_x := some e.value
              } : Decoder).update_mapping_from_abs ABS_MT_POSITION_X e.value := by
        unfold Decoder.update_mt_slot_position
        rw [if_pos hslot]
      rw [hh, hu.1]
      show motionState dc = motionState d
      rw [hdc]
      exact hfields.1

theorem C9_witness :
    ∃ d1, (Decoder.new (.DevicePerCursor .Left) 1).decode
        ⟨.RelAxis ⟨9⟩, 5⟩ ⟨"/dev/input/event4", "padA", none⟩ = .ok (d1, [])
      ∧ motionState d1 = motionState (Decoder.new (.DevicePerCursor .Left) 1) :=
  (C9_decode_total (Decoder.new (.DevicePerCursor .Left) 1) ⟨.RelAxis ⟨9⟩, 5⟩
      ⟨"/dev/input/event4", "padA", none⟩ ⟨9⟩ BTN_LEFT ABS_X).2.1
    rfl (by decide) (by decide) (by decide)

/-- C5 counterexample: designated axis ABS_X with left range 0..=10 and right
range 100..=200.  After an ABS_MT_POSITION_X report of 150 and an ABS_X report
of 5 (which routes to Left), a relative event arriving before the next ABS_X
report resolves to Right, not to the previously determined Left: the mapping
falls back to the remembered ABS_MT_POSITION_X value 150, which lies in the
right range. -/
theorem C5_counterexample :
    ((decodeRun (Decoder.new
          (.SingleDevice (.ByAbsAxisRange ABS_X ⟨0, 10⟩ ⟨100, 200⟩)) 1)
        ⟨"/dev/input/event4", "padA", none⟩
        [⟨.AbsAxis ABS_MT_POSITION_X, 150⟩]).1.cursor_for_event
          ⟨.AbsAxis ABS_X, 5⟩).2 = .Left
    ∧ ((decodeRun (Decoder.new
          (.SingleDevice (.ByAbsAxisRange ABS_X ⟨0, 10⟩ ⟨100, 200⟩)) 1)
        ⟨"/dev/input/event4", "padA", none⟩
        [⟨.AbsAxis ABS_MT_POSITION_X, 150⟩,
         ⟨.AbsAxis ABS_X, 5⟩]).1.cursor_for_event ⟨.RelAxis REL_X, 1⟩).2
      = .Right := by
  constructor <;> rfl

theorem setPending_last_abs_x (d : Decoder) (c : CursorId) (p : PendingMotion) :
    (d.setPending c p).last_abs_x = d.last_abs_x := by
  cases c <;> rfl

/-- C5 (amended): an event on the designated axis with a value in the left
range routes to Left and updates the active cursor, symmetrically for the
right range; a value in neither range leaves the active cursor unchanged.
The remembered fallback value is the most recent ABS_MT_POSITION_X report (not
the most recent designated-axis report), so only when the designated axis is
ABS_MT_POSITION_X itself do events of other kinds between axis reports always
resolve to the previously determined cursor; relative and key events preserve
the remembered value. -/
theorem C5_abs_axis_range (d : Decoder) (ax : AbsoluteAxisType)
    (l r : RangeInclusive) (e : InputEvent) (v : ℤ) :
    (d.mapping = .SingleDevice (.ByAbsAxisRange ax l r) →
      e.kind = .AbsAxis ax →
      ((l.contains e.value = true →
         d.cursor_for_event e = ({ d with active_cursor := .Left }, .Left))
       ∧ (l.contains e.value = false → r.contains e.value = true →
         d.cursor_for_event e = ({ d with active_cursor := .Right }, .Right))
       ∧ (l.contains e.value = false → r.contains e.value = false →
         d.cursor_for_event e = (d, d.active_cursor))))
    ∧ (d.mapping = .SingleDevice (.ByAbsAxisRange ABS_MT_POSITION_X l r) →
        d.last_abs_x = some v → l.contains v = true →
        e.kind ≠ .AbsAxis ABS_MT_POSITION_X →
        d.cursor_for_event e = ({ d with active_cursor := .Left }, .Left))
    ∧ (∀ a src, e.kind = .RelAxis a →
        ∀ d1 evs, d.decode e src = .ok (d1, evs) → d1.last_abs_x = d.last_abs_x)
    ∧ (∀ k1 src, e.kind = .Key k1 →
        ∀ d1 evs, d.decode e src = .ok (d1, evs) → d1.last_abs_x = d.last_abs_x) := by
  refine ⟨?_, ?_, ?_, ?_⟩
  · intro hm hk
    have hmatch : (match e.kind with
                   | InputEventKind.AbsAxis a => a == ax
                   | _ => false) = true := by
      rw [hk]; simp
    refine ⟨?_, ?_, ?_⟩
    · intro hl
      simp [Decoder.cursor_for_event, cursor_from_single_mapping, hm, hmatch, hl]
    · intro hl hr
      simp [Decoder.cursor_for_event, cursor_from_single_mapping, hm, hmatch, hl, hr]
    · intro hl hr
      simp [Decoder.cursor_for_event, cursor_from_single_mapping, hm, hmatch, hl, hr]
  · intro hm hlast hl hk
    have hmatch : (match e.kind with
                   | InputEventKind.AbsAxis a => a == ABS_MT_POSITION_X
                   | _ => false) = false := by
      rcases he : e.kind with a | k | a | c | ⟨ty, c⟩
      · rfl
      · rfl
      · have ha : a ≠ ABS_MT_POSITION_X := fun h => hk (by rw [he, h])
        simpa using ha
      · rfl
      · rfl
    simp [Decoder.cursor_for_event, cursor_from_single_mapping, hm, hmatch,
      hlast, hl]
  · intro a src hk d1 evs heq
    rcases hcp : d.cursor_for_event e with ⟨dc, cursor⟩
    have hlx : dc.last_abs_x = d.last_abs_x := by
      have h := (cursor_for_event_fields d e).2.2
      rw [hcp] at h
      exact h
    unfold Decoder.decode at heq
    rw [hcp, hk] at heq
    dsimp only at heq
    simp only [Except.ok.injEq, Prod.mk.injEq] at heq
    rw [← heq.1, setPending_last_abs_x]
    exact hlx
  · intro k1 src hk d1 evs heq
    rcases hcp : d.cursor_for_event e with ⟨dc, cursor⟩
    have hlx : dc.last_abs_x = d.last_abs_x := by
      have h := (cursor_for_event_fields d e).2.2
      rw [hcp] at h
      exact h
    unfold Decoder.decode at heq
    rw [hcp, hk] at heq
    dsimp only at heq
    rcases hmb : map_button k1 with _ | b
    · rw [hmb] at heq
      simp only [Except.ok.injEq, Prod.mk.injEq] at heq
      rw [← heq.1]
      exact hlx
    · rw [hmb] at heq
      dsimp only at heq
      simp only [Except.ok.injEq, Prod.mk.injEq] at heq
      rw [← heq.1, setPending_last_abs_x]
      exact hlx

theorem C5_witness :
    ((Decoder.new (.SingleDevice
          (.ByAbsAxisRange ABS_MT_POSITION_X ⟨0, 10⟩ ⟨100, 200⟩)) 1).cursor_for_event
        ⟨.AbsAxis ABS_MT_POSITION_X, 5⟩
      = ({ Decoder.new (.SingleDevice
             (.ByAbsAxisRange ABS_MT_POSITION_X ⟨0, 10⟩ ⟨100, 200⟩)) 1 with
             active_cursor := .Left }, .Left))
    ∧ (({ Decoder.new (.SingleDevice
            (.ByAbsAxisRange ABS_MT_POSITION_X ⟨0, 10⟩ ⟨100, 200⟩)) 1 with
            last_abs_x := some 5 }).cursor_for_event ⟨.RelAxis REL_X, 1⟩
      = ({ { Decoder.new (.SingleDevice
               (.ByAbsAxisRange ABS_MT_POSITION_X ⟨0, 10⟩ ⟨100, 200⟩)) 1 with
               last_abs_x := some 5 } with active_cursor := .Left }, .Left)) :=
  ⟨((C5_abs_axis_range (Decoder.new (.SingleDevice
        (.ByAbsAxisRange ABS_MT_POSITION_X ⟨0, 10⟩ ⟨100, 200⟩)) 1)
      ABS_MT_POSITION_X ⟨0, 10⟩ ⟨100, 200⟩
      ⟨.AbsAxis ABS_MT_POSITION_X, 5⟩ 5).1 rfl rfl).1 (by decide),
   (C5_abs_axis_range ({ Decoder.new (.SingleDevice
         (.ByAbsAxisRange ABS_MT_POSITION_X ⟨0, 10⟩ ⟨100, 200⟩)) 1 with
         last_abs_x := some 5 })
      ABS_MT_POSITION_X ⟨0, 10⟩ ⟨100, 200⟩
      ⟨.RelAxis REL_X, 1⟩ 5).2.1 rfl rfl (by decide) (by decide)⟩

theorem pending_setAbsState (d : Decoder) (c c' : CursorId) (st : AbsState) :
    (d.setAbsState c st).pending c' = d.pending c' := by
  cases c <;> cases c' <;> rfl

theorem absState_setPending (d : Decoder) (c c' : CursorId) (p : PendingMotion) :
    (d.setPending c p).absState c' = d.absState c' := by
  cases c <;> cases c' <;> rfl

theorem pending_setPending_self (d : Decoder) (c : CursorId) (p : PendingMotion) :
    (d.setPending c p).pending c = p := by
  cases c <;> rfl

theorem setPending_setPending (d : Decoder) (c : CursorId) (p q : PendingMotion) :
    (d.setPending c p).setPending c q = d.setPending c q := by
  cases c <;> rfl

theorem pending_setPending_ne (d : Decoder) (c c' : CursorId) (p : PendingMotion)
    (h : c ≠ c') : (d.setPending c p).pending c' = d.pending c' := by
  cases c <;> cases c' <;> first | rfl | exact absurd rfl h

theorem mapping_setPending (d : Decoder) (c : CursorId) (p : PendingMotion) :
    (d.setPending c p).mapping = d.mapping := by
  cases c <;> rfl

theorem mt_slots_setPending (d : Decoder) (c : CursorId) (p : PendingMotion) :
    (d.setPending c p).mt_slots = d.mt_slots := by
  cases c <;> rfl

theorem abs_scale_setPending (d : Decoder) (c : CursorId) (p : PendingMotion) :
    (d.setPending c p).abs_scale = d.abs_scale := by
  cases c <;> rfl

theorem abs_scale_setAbsState (d : Decoder) (c : CursorId) (st : AbsState) :
    (d.setAbsState c st).abs_scale = d.abs_scale := by
  cases c <;> rfl

theorem pending_R_setPending_L (d : Decoder) (p : PendingMotion) :
    (d.setPending .Left p).pending .Right = d.pending .Right := rfl

theorem absState_R_setAbsState_L (d : Decoder) (st : AbsState) :
    (d.setAbsState .Left st).absState .Right = d.absState .Right := rfl

theorem flushCursor_spec (d : Decoder) (c : CursorId) :
    d.flushCursor c =
      ((d.setAbsState c (absDeltaCore d.abs_scale (d.absState c)).1).setPending c
         pendingDefault,
       if ((d.pending c).dx + (absDeltaCore d.abs_scale (d.absState c)).2.1 = 0
           ∧ (d.pending c).dy + (absDeltaCore d.abs_scale (d.absState c)).2.2 = 0
           ∧ (d.pending c).wheel = 0 ∧ (d.pending c).button = none) then none
       else some ⟨c,
         (d.pending c).dx + (absDeltaCore d.abs_scale (d.absState c)).2.1,
         (d.pending c).dy + (absDeltaCore d.abs_scale (d.absState c)).2.2,
         (d.pending c).wheel, (d.pending c).button⟩) := by
  unfold Decoder.flushCursor Decoder.abs_delta
  rcases habs : absDeltaCore d.abs_scale (d.absState c) with ⟨st, ddx, ddy⟩
  dsimp only
  simp only [pending_setAbsState]
  split <;> rfl

theorem flush_snd (d : Decoder) :
    (d.flush).2 =
      (if emits d .Left then [flushEvent d .Left] else []) ++
      (if emits d .Right then [flushEvent d .Right] else []) := by
  unfold Decoder.flush
  dsimp only
  rw [flushCursor_spec (d.apply_mt_deltas) .Left]
  dsimp only
  rw [flushCursor_spec _ .Right]
  dsimp only
  simp only [pending_setPending_self, pending_setAbsState, absState_setPending,
    abs_scale_setPending, abs_scale_setAbsState, pending_R_setPending_L,
    absState_R_setAbsState_L]
  simp only [emits, flushTotals, flushEvent, Decoder.abs_delta]
  by_cases hL : ((d.apply_mt_deltas.pending .Left).dx +
        (absDeltaCore d.apply_mt_deltas.abs_scale
          (d.apply_mt_deltas.absState .Left)).2.1 = 0
      ∧ (d.apply_mt_deltas.pending .Left).dy +
        (absDeltaCore d.apply_mt_deltas.abs_scale
          (d.apply_mt_deltas.absState .Left)).2.2 = 0
      ∧ (d.apply_mt_deltas.pending .Left).wheel = 0
      ∧ (d.apply_mt_deltas.pending .Left).button = none) <;>
    by_cases hR : ((d.apply_mt_deltas.pending .Right).dx +
        (absDeltaCore d.apply_mt_deltas.abs_scale
          (d.apply_mt_deltas.absState .Right)).2.1 = 0
      ∧ (d.apply_mt_deltas.pending .Right).dy +
        (absDeltaCore d.apply_mt_deltas.abs_scale
          (d.apply_mt_deltas.absState .Right)).2.2 = 0
      ∧ (d.apply_mt_deltas.pending .Right).wheel = 0
      ∧ (d.apply_mt_deltas.pending .Right).button = none) <;>
    simp [hL, hR]

/-- C1: at a synchronization flush the decoder handles Left then Right in that
fixed order, emitting exactly one CursorEvent for a cursor whose accumulated
totals since the previous sync are non-empty (non-zero dx, dy or wheel, or a
pending button transition) and none for a cursor whose totals are all empty. -/
theorem C1_flush_emission (d : Decoder) :
    (d.flush).2 =
      (if emits d .Left then [flushEvent d .Left] else []) ++
      (if emits d .Right then [flushEvent d .Right] else []) :=
  flush_snd d

theorem decode_rel_step (d : Decoder) (e : InputEvent) (src : DeviceSource)
    (c : CursorId) (a : RelativeAxisType)
    (hm : d.mapping = .DevicePerCursor c) (hk : e.kind = .RelAxis a) :
    d.decode e src = .ok (d.setPending c
      (if a = REL_X then
        { d.pending c with dx := (d.pending c).dx + (e.value : ℚ) }
       else if a = REL_Y then
        { d.pending c with dy := (d.pending c).dy + (e.value : ℚ) }
       else if a = REL_WHEEL then
        { d.pending c with wheel := (d.pending c).wheel + e.value }
       else d.pending c), []) := by
  have hcp : d.cursor_for_event e = (d, c) := by
    simp [Decoder.cursor_for_event, hm]
  unfold Decoder.decode
  rw [hcp, hk]

theorem decodeRun_cons (d : Decoder) (src : DeviceSource) (e : InputEvent)
    (rest : List InputEvent) (d1 : Decoder) (evs : List CursorEvent)
    (h : d.decode e src = .ok (d1, evs)) :
    decodeRun d src (e :: rest) =
      ((decodeRun d1 src rest).1, evs ++ (decodeRun d1 src rest).2) := by
  simp only [decodeRun, h]

theorem decodeRun_append (d : Decoder) (src : DeviceSource)
    (l1 l2 : List InputEvent) :
    decodeRun d src (l1 ++ l2) =
      ((decodeRun (decodeRun d src l1).1 src l2).1,
       (decodeRun d src l1).2 ++ (decodeRun (decodeRun d src l1).1 src l2).2) := by
  induction l1 generalizing d with
  | nil => simp [decodeRun]
  | cons e rest ih =>
      obtain ⟨⟨d1, evs1⟩, h⟩ := decode_isOk d e src
      rw [List.cons_append, decodeRun_cons d src e (rest ++ l2) d1 evs1 h,
          decodeRun_cons d src e rest d1 evs1 h, ih d1]
      simp [List.append_assoc]

theorem absDeltaCore_incomplete (scale : ℚ) (st : AbsState)
    (h : st.cur_x = none ∨ st.cur_y = none) :
    absDeltaCore scale st = (st, 0, 0) := by
  rcases h with h | h
  · unfold absDeltaCore
    rw [h]
    rcases st.cur_y <;> rfl
  · unfold absDeltaCore
    rw [h]
    rcases st.cur_x <;> rfl

theorem mtSlotStep_incomplete (scale : ℚ) (s : MtSlotState)
    (pl pr : PendingMotion)
    (h : s.cursor = none ∨ s.cur_x = none ∨ s.cur_y = none) :
    mtSlotStep scale s pl pr = (s, pl, pr) := by
  rcases h with h | h | h
  · unfold mtSlotStep
    rw [h]
  · unfold mtSlotStep
    rw [h]
    rcases s.cursor <;> rcases s.cur_y <;> rfl
  · unfold mtSlotStep
    rw [h]
    rcases s.cursor <;> rcases s.cur_x <;> rfl

theorem mtRun_incomplete (scale : ℚ) (slots : List MtSlotState)
    (pl pr : PendingMotion)
    (h : ∀ s ∈ slots, s.cursor = none ∨ s.cur_x = none ∨ s.cur_y = none) :
    mtRun scale slots pl pr = (slots, pl, pr) := by
  induction slots with
  | nil => rfl
  | cons s rest ih =>
      have hstep := mtSlotStep_incomplete scale s pl pr (h s (by simp))
      simp only [mtRun, hstep]
      rw [ih (fun s' hs' => h s' (by simp [hs']))]

theorem apply_mt_deltas_incomplete (d : Decoder)
    (h : ∀ s ∈ d.mt_slots, s.cursor = none ∨ s.cur_x = none ∨ s.cur_y = none) :
    d.apply_mt_deltas = d := by
  unfold Decoder.apply_mt_deltas
  rw [mtRun_incomplete _ _ _ _ h]

theorem flushTotals_of_incomplete (d : Decoder) (c : CursorId)
    (hslots : ∀ s ∈ d.mt_slots, s.cursor = none ∨ s.cur_x = none ∨ s.cur_y = none)
    (habs : (d.absState c).cur_x = none ∨ (d.absState c).cur_y = none) :
    flushTotals d c = ((d.pending c).dx, (d.pending c).dy,
      (d.pending c).wheel, (d.pending c).button) := by
  unfold flushTotals Decoder.abs_delta
  rw [apply_mt_deltas_incomplete d hslots]
  dsimp only
  rw [absDeltaCore_incomplete d.abs_scale (d.absState c) habs]
  dsimp only
  rw [add_zero, add_zero]

theorem decodeRun_rel (src : DeviceSource) (c : CursorId)
    (evs : List InputEvent) :
    ∀ d : Decoder, d.mapping = .DevicePerCursor c →
    (∀ e ∈ evs, ∃ a, e.kind = .RelAxis a) →
    decodeRun d src evs =
      (d.setPending c
        { dx := (d.pending c).dx + ((relSumX evs : ℤ) : ℚ),
          dy := (d.pending c).dy + ((relSumY evs : ℤ) : ℚ),
          wheel := (d.pending c).wheel + relSumW evs,
          button := (d.pending c).button }, []) := by
  induction evs with
  | nil =>
      intro d hm hrel
      simp only [decodeRun, relSumX, relSumY, relSumW, Int.cast_zero, add_zero]
      exact congrArg (fun x => (x, ([] : List CursorEvent)))
        (setPending_self d c).symm
  | cons e rest ih =>
      intro d hm hrel
      obtain ⟨a, hk⟩ := hrel e (List.mem_cons_self e rest)
      have hstep := decode_rel_step d e src c a hm hk
      rw [decodeRun_cons d src e rest _ _ hstep]
      have hm2 : (d.setPending c
          (if a = REL_X then
            { d.pending c with dx := (d.pending c).dx + (e.value : ℚ) }
           else if a = REL_Y then
            { d.pending c with dy := (d.pending c).dy + (e.value : ℚ) }
           else if a = REL_WHEEL then
            { d.pending c with wheel := (d.pending c).wheel + e.value }
           else d.pending c)).mapping = MappingStrategy.DevicePerCursor c := by
        rw [mapping_setPending, hm]
      rw [ih _ hm2 (fun e' he' => hrel e' (List.mem_cons_of_mem e he'))]
      rw [setPending_setPending, pending_setPending_self]
      have hxy : REL_X ≠ REL_Y := by decide
      have hxw : REL_X ≠ REL_WHEEL := by decide
      have hyw : REL_Y ≠ REL_WHEEL := by decide
      by_cases hx : a = REL_X
      · subst hx
        simp only [relSumX, relSumY, relSumW, hk, if_pos rfl, if_neg hxy,
          if_neg hxw, List.nil_append]
        refine congrArg (fun p => (d.setPending c p, ([] : List CursorEvent))) ?_
        simp only [zero_add, PendingMotion.mk.injEq]
        refine ⟨?_, ?_, ?_, rfl⟩ <;> push_cast <;> ring
      · by_cases hy : a = REL_Y
        · subst hy
          simp only [relSumX, relSumY, relSumW, hk, if_pos rfl,
            if_neg (Ne.symm hxy), if_neg hyw, if_neg hxy, List.nil_append]
          refine congrArg (fun p => (d.setPending c p, ([] : List CursorEvent))) ?_
          simp only [zero_add, PendingMotion.mk.injEq]
          refine ⟨?_, ?_, ?_, rfl⟩ <;> push_cast <;> ring
        · by_cases hw : a = REL_WHEEL
          · subst hw
            simp only [relSumX, relSumY, relSumW, hk, if_pos rfl,
              if_neg (Ne.symm hxw), if_neg (Ne.symm hyw), if_neg hxw,
              if_neg hyw, List.nil_append]
            refine congrArg (fun p => (d.setPending c p, ([] : List CursorEvent))) ?_
            simp only [zero_add, PendingMotion.mk.injEq]
            refine ⟨?_, ?_, ?_, rfl⟩ <;> push_cast <;> ring
          · simp only [relSumX, relSumY, relSumW, hk, if_neg hx, if_neg hy,
              if_neg hw, List.nil_append, zero_add]

/-- C2: for every run of relative-axis reports delivered between two
synchronization markers under a fixed-cursor mapping, the flush at the closing
sync emits for the owning cursor exactly the integer sums of the REL_X, REL_Y
and REL_WHEEL increments (and nothing at all when all three sums are zero). -/
theorem C2_relative_sums (d : Decoder) (src : DeviceSource) (c : CursorId)
    (evs : List InputEvent) (sc : Nat) (sv : ℤ)
    (hm : d.mapping = .DevicePerCursor c)
    (hpl : d.pending_left = pendingDefault)
    (hpr : d.pending_right = pendingDefault)
    (hal : d.abs_left.cur_x = none ∨ d.abs_left.cur_y = none)
    (har : d.abs_right.cur_x = none ∨ d.abs_right.cur_y = none)
    (hslots : ∀ s ∈ d.mt_slots, s.cursor = none ∨ s.cur_x = none ∨ s.cur_y = none)
    (hrel : ∀ e ∈ evs, ∃ a, e.kind = .RelAxis a) :
    (decodeRun d src (evs ++ [⟨.Sync sc, sv⟩])).2 =
      if relSumX evs = 0 ∧ relSumY evs = 0 ∧ relSumW evs = 0 then []
      else [⟨c, ((relSumX evs : ℤ) : ℚ), ((relSumY evs : ℤ) : ℚ),
             relSumW evs, none⟩] := by
  rw [decodeRun_append, decodeRun_rel src c evs d hm hrel]
  have hp : d.pending c = pendingDefault := by
    cases c
    · exact hpl
    · exact hpr
  rw [hp]
  simp only [pendingDefault, zero_add]
  set dN := d.setPending c
    ⟨((relSumX evs : ℤ) : ℚ), ((relSumY evs : ℤ) : ℚ), relSumW evs, none⟩
    with hdN
  have hmN : dN.mapping = MappingStrategy.DevicePerCursor c := by
    rw [hdN, mapping_setPending, hm]
  have hcp : dN.cursor_for_event ⟨.Sync sc, sv⟩ = (dN, c) := by
    simp [Decoder.cursor_for_event, hmN]
  have hsync : dN.decode ⟨.Sync sc, sv⟩ src = .ok ((dN.flush).1, (dN.flush).2) := by
    unfold Decoder.decode
    rw [hcp]
  rw [decodeRun_cons dN src ⟨.Sync sc, sv⟩ [] _ _ hsync]
  simp only [decodeRun, List.append_nil, List.nil_append]
  rw [flush_snd dN]
  have hslotsN : ∀ s ∈ dN.mt_slots,
      s.cursor = none ∨ s.cur_x = none ∨ s.cur_y = none := by
    rw [hdN, mt_slots_setPending]
    exact hslots
  have habs : ∀ c', (dN.absState c').cur_x = none ∨ (dN.absState c').cur_y = none := by
    intro c'
    rw [hdN, absState_setPending]
    cases c'
    · exact hal
    · exact har
  have htc : flushTotals dN c =
      (((relSumX evs : ℤ) : ℚ), ((relSumY evs : ℤ) : ℚ), relSumW evs, none) := by
    rw [flushTotals_of_incomplete dN c hslotsN (habs c), hdN, pending_setPending_self]
  have hto : ∀ c', c ≠ c' → flushTotals dN c' = (0, 0, 0, none) := by
    intro c' hne
    rw [flushTotals_of_incomplete dN c' hslotsN (habs c'), hdN,
      pending_setPending_ne d c c' _ hne]
    have hp' : d.pending c' = pendingDefault := by
      cases c'
      · exact hpl
      · exact hpr
    rw [hp']
    rfl
  cases c
  · have hR : ¬ emits dN .Right := by
      have h0 := hto .Right (by decide)
      simp [emits, h0]
    rw [if_neg hR, List.append_nil]
    by_cases hz : relSumX evs = 0 ∧ relSumY evs = 0 ∧ relSumW evs = 0
    · have hL : ¬ emits dN .Left := by
        simp [emits, htc, hz.1, hz.2.1, hz.2.2]
      rw [if_neg hL, if_pos hz]
    · have hL : emits dN .Left := by
        simp only [emits, htc]
        intro hc
        exact hz ⟨Int.cast_eq_zero.mp hc.1, Int.cast_eq_zero.mp hc.2.1, hc.2.2.1⟩
      rw [if_pos hL, if_neg hz]
      simp only [flushEvent, htc]
  · have hL : ¬ emits dN .Left := by
      have h0 := hto .Left (by decide)
      simp [emits, h0]
    rw [if_neg hL, List.nil_append]
    by_cases hz : relSumX evs = 0 ∧ relSumY evs = 0 ∧ relSumW evs = 0
    · have hR : ¬ emits dN .Right := by
        simp [emits, htc, hz.1, hz.2.1, hz.2.2]
      rw [if_neg hR, if_pos hz]
    · have hR : emits dN .Right := by
        simp only [emits, htc]
        intro hc
        exact hz ⟨Int.cast_eq_zero.mp hc.1, Int.cast_eq_zero.mp hc.2.1, hc.2.2.1⟩
      rw [if_pos hR, if_neg hz]
      simp only [flushEvent, htc]

theorem C2_witness :
    (decodeRun (Decoder.new (.DevicePerCursor .Left) 1)
        ⟨"/dev/input/event4", "padA", none⟩
        ([⟨.RelAxis REL_X, 5⟩, ⟨.RelAxis REL_X, 2⟩, ⟨.RelAxis REL_Y, -3⟩,
          ⟨.RelAxis REL_WHEEL, 1⟩] ++ [⟨.Sync 0, 0⟩])).2 =
      if relSumX [⟨.RelAxis REL_X, 5⟩, ⟨.RelAxis REL_X, 2⟩, ⟨.RelAxis REL_Y, -3⟩,
            ⟨.RelAxis REL_WHEEL, 1⟩] = 0
         ∧ relSumY [⟨.RelAxis REL_X, 5⟩, ⟨.RelAxis REL_X, 2⟩, ⟨.RelAxis REL_Y, -3⟩,
            ⟨.RelAxis REL_WHEEL, 1⟩] = 0
         ∧ relSumW [⟨.RelAxis REL_X, 5⟩, ⟨.RelAxis REL_X, 2⟩, ⟨.RelAxis REL_Y, -3⟩,
            ⟨.RelAxis REL_WHEEL, 1⟩] = 0 then []
      else [⟨.Left,
        ((relSumX [⟨.RelAxis REL_X, 5⟩, ⟨.RelAxis REL_X, 2⟩, ⟨.RelAxis REL_Y, -3⟩,
            ⟨.RelAxis REL_WHEEL, 1⟩] : ℤ) : ℚ),
        ((relSumY [⟨.RelAxis REL_X, 5⟩, ⟨.RelAxis REL_X, 2⟩, ⟨.RelAxis REL_Y, -3⟩,
            ⟨.RelAxis REL_WHEEL, 1⟩] : ℤ) : ℚ),
        relSumW [⟨.RelAxis REL_X, 5⟩, ⟨.RelAxis REL_X, 2⟩, ⟨.RelAxis REL_Y, -3⟩,
            ⟨.RelAxis REL_WHEEL, 1⟩], none⟩] :=
  C2_relative_sums (Decoder.new (.DevicePerCursor .Left) 1)
    ⟨"/dev/input/event4", "padA", none⟩ .Left
    [⟨.RelAxis REL_X, 5⟩, ⟨.RelAxis REL_X, 2⟩, ⟨.RelAxis REL_Y, -3⟩,
     ⟨.RelAxis REL_WHEEL, 1⟩] 0 0 rfl rfl rfl (Or.inl rfl) (Or.inl rfl)
    (fun s hs => absurd hs (List.not_mem_nil s))
    (by intro e he; fin_cases he <;> exact ⟨_, rfl⟩)

end VoxPlay
